import Mathlib

/-!
Verification of the jsparagus bytecode-emission stage (`crates/emitter/src/ast_emitter.rs`,
`crates/scope/src/lib.rs`).

The AST-driven emitter dispatch (`emit_program`, `AstEmitter::emit_statement`,
`emit_expression`, `emit_if`, `emit_binary_expression`, `emit_short_circuit`,
`emit_variable_declaration_statement`, `emit_declaration_assignment`,
`emit_assignment_expression`, `emit_call_expression`, `emit_new_expression`,
`emit_arguments`, `emit_argument`, ...) is translated directly from the source.

The helper crates referenced by the source but not present in the repository snapshot
(the instruction writer, the control-structure emitters with jump patching, the
reference/operation emitters, and the emitter scope stack) are modelled from the
specification; each such definition carries a doc comment saying so.

Machine integers do not occur on the modelled paths; atoms and pool indices are
natural numbers.
-/

set_option maxHeartbeats 1000000

namespace Jsparagus

/-- Binding kinds recorded by scope analysis (spec §3: var/let/const/parameter/function). -/
inductive BindingKind where
  | kindVar
  | kindLet
  | kindConst
  | kindParameter
  | kindFunction
deriving DecidableEq, Repr

/-- A Scope Record: ordered sequence of (name, binding-kind) pairs (spec §3).
Names are atom indices (naturals). -/
abbrev ScopeRecord := List (Nat × BindingKind)

/-- Modelled from the spec: the Scope Data Map produced by the scope-analysis pass
(`scope::generate_scope_data`).  Block records are embedded at the block nodes
(node-identity keying realised structurally); the map itself carries the
outermost script record. -/
structure ScopeDataMap where
  script : ScopeRecord
deriving DecidableEq, Repr

/-- Modelled from the spec (§3 Name Location): the resolved storage class for a
name reference: frame slot (scope depth, slot index), global, or dynamic. -/
inductive NameLocation where
  | frameSlot (depth : Nat) (slot : Nat)
  | globalName (name : Nat)
  | dynamicName (name : Nat)
deriving DecidableEq, Repr

/-- Opcodes named by the source (`crate::opcode::Opcode` as used in
`emit_binary_expression` and the unary-operator match). -/
inductive Opcode where
  | eq | ne | strictEq | strictNe
  | lt | le | gt | ge
  | inOp | instanceofOp
  | lsh | rsh | ursh
  | add | sub | mul | div | mod | pow
  | bitOr | bitXor | bitAnd
  | pos | neg | not | bitNot | voidOp
deriving DecidableEq, Repr

/-- Jump kinds used by the source (`control_structures::JumpKind`).  Modelled from
the spec: `goto` is unconditional; `ifEq` jumps when the tested value is false
(consuming it); `ifNe` jumps back when true (do-while); `logicalOr` jumps when
the left value is truthy, `logicalAnd` when it is falsy, `coalesce` when it is
not nullish — these three leave the tested value on the stack. -/
inductive JumpKind where
  | goto
  | ifEq
  | ifNe
  | logicalOr
  | logicalAnd
  | coalesce
deriving DecidableEq, Repr

/-- A regexp literal item as interned by the source (`crate::regexp::RegExpItem`). -/
structure RegExpItem where
  pattern : Nat
  global : Bool
  ignoreCase : Bool
  multiLine : Bool
  dotAll : Bool
  sticky : Bool
  unicode : Bool
deriving DecidableEq, Repr

/-- Modelled from the spec (§2, §4.2, §4.5): the instructions appended by the
instruction writer and the reference/operation emitters.  A `jump` holds its
kind and an optional patched target offset (`none` until patched). -/
inductive Instr where
  | boolean (value : Bool)
  | doubleInfinity
  | null
  | numeric (value : Nat)
  | regExp (index : Nat)
  | string (index : Nat)
  | pop
  | throwInstr
  | unaryOp (opcode : Opcode)
  | binaryOp (opcode : Opcode)
  | jump (kind : JumpKind) (target : Option Nat)
  | jumpTarget
  | getName (loc : NameLocation)
  | getProp (key : Nat)
  | getElem
  | getSuperProp (key : Nat)
  | getSuperElem
  | callNameRef (loc : NameLocation)
  | callPropRef (key : Nat)
  | callElemRef
  | call (argc : Nat)
  | construct (argc : Nat)
  | setName (loc : NameLocation)
  | initName (loc : NameLocation)
  | newObject
  | initProp (key : Nat)
  | initIndexProp (key : Nat)
  | initComputedProp
  | newArray
  | initElemArray
  | hole
  | arraySpread
deriving DecidableEq, Repr

/-- The emitter error type (`crate::emitter::EmitError`); the source only
constructs `NotImplemented(&str)`. -/
inductive EmitError where
  | notImplemented (msg : String)
deriving DecidableEq, Repr

/-- Modelled from the spec (§3 Loop Stack): one active loop context, holding the
forward-jump tokens pending for `break` and `continue`. -/
structure LoopInfo where
  breaks : List Nat
  continues : List Nat
deriving DecidableEq, Repr

/-- The emitter state: instruction stream, literal pools, emitter scope stack,
loop stack (spec §3), plus the read-only scope data map held by
`CompilationInfo` in the source. -/
structure EmitterState where
  instrs : List Instr
  atomPool : List Nat
  regexpPool : List RegExpItem
  scopeStack : List ScopeRecord
  loopStack : List LoopInfo
  scopeDataMap : ScopeDataMap
deriving DecidableEq, Repr

/-- Result of a stateful emission step.  Mirrors Rust `&mut self` + `Result`:
the state survives an error (mutations made before the failure persist). -/
inductive ERes (α : Type) where
  | ok (a : α) (s : EmitterState)
  | err (e : EmitError) (s : EmitterState)
deriving Repr

/-- The emission monad: explicit state passing with failure. -/
def EmitM (α : Type) : Type := EmitterState → ERes α

def EmitM.pure (a : α) : EmitM α := fun s => .ok a s

def EmitM.bind (m : EmitM α) (f : α → EmitM β) : EmitM β := fun s =>
  match m s with
  | .ok a s' => f a s'
  | .err e s' => .err e s'

instance : Monad EmitM where
  pure := EmitM.pure
  bind := EmitM.bind

/-- Append one instruction to the stream (instruction-writer append primitive). -/
def appendInstr (i : Instr) : EmitM Unit := fun s =>
  .ok () { s with instrs := s.instrs ++ [i] }

/-- Fail with a `NotImplemented` error, leaving the state untouched. -/
def notImpl (msg : String) : EmitM α := fun s =>
  .err (.notImplemented msg) s

/-- First index of `a` in the pool, if present. -/
def poolFind [DecidableEq α] : List α → α → Option Nat
  | [], _ => none
  | x :: xs, a => if x = a then some 0 else (poolFind xs a).map (fun i => i + 1)

/-- Deduplicating, insertion-ordered pool insertion (spec §3 literal pools). -/
def addToPool [DecidableEq α] (l : List α) (a : α) : Nat × List α :=
  match poolFind l a with
  | some i => (i, l)
  | none => (l.length, l ++ [a])

/-- Modelled from the spec (§4.2): `get_atom_index`, auto-deduplicating into the
atom pool and returning the stable index. -/
def getAtomIndexM (a : Nat) : EmitM Nat := fun s =>
  let p := addToPool s.atomPool a
  .ok p.1 { s with atomPool := p.2 }

/-- Modelled from the spec (§4.2): `get_regexp_gcthing_index`, deduplicating into
the regexp pool. -/
def getRegExpIndexM (item : RegExpItem) : EmitM Nat := fun s =>
  let p := addToPool s.regexpPool item
  .ok p.1 { s with regexpPool := p.2 }

/-- Modelled from the spec (§4.2 reserve-jump): append a jump with an unresolved
target and return its offset as the patch token. -/
def forwardJump (kind : JumpKind) : EmitM Nat := fun s =>
  .ok s.instrs.length { s with instrs := s.instrs ++ [.jump kind none] }

/-- Patch the jump at offset `tok` to land at `target` (spec §4.2 patch-jump).
A non-jump at the offset is left unchanged (token misuse is caller error, spec §3). -/
def patchTarget (l : List Instr) (tok : Nat) (target : Nat) : List Instr :=
  match l[tok]? with
  | some (.jump k _) => l.set tok (.jump k (some target))
  | _ => l

/-- Modelled from the spec (§4.4): resolution mode "patch to the next
instruction emitted" (fallthrough merge). -/
def patchMerge (tok : Nat) : EmitM Unit := fun s =>
  .ok () { s with instrs := patchTarget s.instrs tok s.instrs.length }

/-- Modelled from the spec (§4.4): resolution mode "patch to an already-reached
alternate label" (the current offset, where the alternate is about to start). -/
def patchNotMerge (tok : Nat) : EmitM Unit := fun s =>
  .ok () { s with instrs := patchTarget s.instrs tok s.instrs.length }

/-- Modelled from the spec (§4.2): `mark-jump-target` records the current offset
as a valid landing point; modelled as a marker instruction. -/
def jumpTargetM : EmitM Unit := appendInstr .jumpTarget

/-- Slot index of `name` in a scope record (first binding wins). -/
def recordSlot : ScopeRecord → Nat → Option Nat
  | [], _ => none
  | (m, _) :: rest, n =>
    if m = n then some 0 else (recordSlot rest n).map (fun i => i + 1)

/-- Modelled from the spec (§3 Name Location, §4.3 resolve): walk the emitter
scope stack innermost-to-outermost; the first frame binding the name wins
(lexical shadowing); otherwise fall back to a global reference. -/
def lookupNameIn : List ScopeRecord → Nat → NameLocation
  | [], n => .globalName n
  | r :: rest, n =>
    match recordSlot r n with
    | some i => .frameSlot 0 i
    | none =>
      match lookupNameIn rest n with
      | .frameSlot d i => .frameSlot (d + 1) i
      | loc => loc

/-- `AstEmitter::lookup_name`, reading the emitter scope stack. -/
def lookupNameM (name : Nat) : EmitM NameLocation := fun s =>
  .ok (lookupNameIn s.scopeStack name) s

/-- Push a scope frame (spec §4.3 `enter`). -/
def pushScope (r : ScopeRecord) (s : EmitterState) : EmitterState :=
  { s with scopeStack := r :: s.scopeStack }

/-- Pop a scope frame (spec §4.3 `exit`). -/
def popScope (s : EmitterState) : EmitterState :=
  { s with scopeStack := s.scopeStack.tail }

/-- Modelled from the spec (§4.3, §5): scoped acquisition of a scope frame —
push on entry, pop on every exit path including the error path. -/
def withScope (r : ScopeRecord) (body : EmitM Unit) : EmitM Unit := fun s =>
  match body (pushScope r s) with
  | .ok _ s' => .ok () (popScope s')
  | .err e s' => .err e (popScope s')

/-- Push an empty loop context (spec §3 Loop Stack). -/
def pushLoopFrame (s : EmitterState) : EmitterState :=
  { s with loopStack := ⟨[], []⟩ :: s.loopStack }

/-- Pop the innermost loop context without patching (error path). -/
def popLoopFrame (s : EmitterState) : EmitterState :=
  { s with loopStack := s.loopStack.tail }

/-- Modelled from the spec (§4.4): when a loop construct finishes emitting, pop
its loop context and patch all pending break jumps to the after-loop offset and
all pending continue jumps to the loop's test/update point. -/
def exitLoopPatches (continueTarget : Nat) : EmitM Unit := fun s =>
  match s.loopStack with
  | [] => .ok () s
  | frame :: rest =>
    let afterLoop := s.instrs.length
    let l₁ := frame.breaks.foldl (fun l tok => patchTarget l tok afterLoop) s.instrs
    let l₂ := frame.continues.foldl (fun l tok => patchTarget l tok continueTarget) l₁
    .ok () { s with instrs := l₂, loopStack := rest }

/-- Modelled from the spec (§4.4 break): emit a forward goto and record its
token in the innermost loop context (`BreakEmitter`, infallible in the source). -/
def breakEmit : EmitM Unit := fun s =>
  let tok := s.instrs.length
  let s' := { s with instrs := s.instrs ++ [Instr.jump .goto none] }
  match s'.loopStack with
  | frame :: rest =>
    .ok () { s' with loopStack := { frame with breaks := frame.breaks ++ [tok] } :: rest }
  | [] => .ok () s'

/-- Modelled from the spec (§4.4 continue): emit a forward goto and record its
token in the innermost loop context (`ContinueEmitter`). -/
def continueEmit : EmitM Unit := fun s =>
  let tok := s.instrs.length
  let s' := { s with instrs := s.instrs ++ [Instr.jump .goto none] }
  match s'.loopStack with
  | frame :: rest =>
    .ok () { s' with loopStack := { frame with continues := frame.continues ++ [tok] } :: rest }
  | [] => .ok () s'

/-- `AstEmitter::emit_this` — always `NotImplemented("TODO: this")` in the source. -/
def emitThis : EmitM Unit := notImpl "TODO: this"

/-- Modelled from the spec: the distinguished atom index for the identifier
`eval` (`CommonSourceAtomSetIndices::eval()`). -/
def evalAtom : Nat := 0

/-- Declared stack effect of each instruction (spec §3 Instruction Buffer: the
operand-stack height change if execution reaches this point linearly).  The
short-circuit jump kinds leave the tested value on the stack; `ifEq`/`ifNe`
consume it. -/
def stackEffect : Instr → Int
  | .boolean _ => 1
  | .doubleInfinity => 1
  | .null => 1
  | .numeric _ => 1
  | .regExp _ => 1
  | .string _ => 1
  | .pop => -1
  | .throwInstr => -1
  | .unaryOp _ => 0
  | .binaryOp _ => -1
  | .jump k _ =>
    match k with
    | .goto => 0
    | .ifEq => -1
    | .ifNe => -1
    | .logicalOr => 0
    | .logicalAnd => 0
    | .coalesce => 0
  | .jumpTarget => 0
  | .getName _ => 1
  | .getProp _ => 0
  | .getElem => -1
  | .getSuperProp _ => 0
  | .getSuperElem => -1
  | .callNameRef _ => 2
  | .callPropRef _ => 1
  | .callElemRef => 0
  | .call argc => -(argc + 1)
  | .construct argc => -argc
  | .setName _ => 0
  | .initName _ => 0
  | .newObject => 1
  | .initProp _ => -1
  | .initIndexProp _ => -1
  | .initComputedProp => -2
  | .newArray => 1
  | .initElemArray => -1
  | .hole => 0
  | .arraySpread => -1

/-- Net linear stack effect of an instruction sequence. -/
def netStackEffect (l : List Instr) : Int := (l.map stackEffect).sum

/-- `VariableDeclarationKind` (`ast::types`): var, let, const. -/
inductive VariableDeclarationKind where
  | kindVar
  | kindLet
  | kindConst
deriving DecidableEq, Repr

/-- `UnaryOperator` (`ast::types`), as matched by the source's unary dispatch. -/
inductive UnaryOperator where
  | plus
  | minus
  | logicalNot
  | bitwiseNot
  | voidOp
  | typeofOp
  | deleteOp
deriving DecidableEq, Repr

/-- `BinaryOperator` (`ast::types`), as matched by `emit_binary_expression`. -/
inductive BinaryOperator where
  | equals | notEquals | strictEquals | strictNotEquals
  | lessThan | lessThanOrEqual | greaterThan | greaterThanOrEqual
  | inOp | instanceofOp
  | leftShift | rightShift | rightShiftExt
  | add | sub | mul | div | mod | pow
  | bitwiseOr | bitwiseXor | bitwiseAnd
  | coalesce | logicalOr | logicalAnd | comma
deriving DecidableEq, Repr

mutual

/-- `ast::types::Statement`; variants the source rejects as unsupported carry no
payload (the source ignores their payloads with `..`/`_`).  Names are atom
indices. -/
inductive Statement where
  | classDeclaration
  | blockStatement (block : Block)
  | breakStatement (label : Option Nat)
  | continueStatement (label : Option Nat)
  | debuggerStatement
  | doWhileStatement (block : Statement) (test : Expression)
  | emptyStatement
  | expressionStatement (expression : Expression)
  | forInStatement
  | forOfStatement
  | forStatement (init : Option VariableDeclarationOrExpression)
      (test : Option Expression) (update : Option Expression) (block : Statement)
  | ifStatement (test : Expression) (consequent : Statement) (alternate : Option Statement)
  | labeledStatement
  | returnStatement
  | switchStatement
  | switchStatementWithDefault
  | throwStatement (expression : Expression)
  | tryCatchStatement
  | tryFinallyStatement
  | variableDeclarationStatement (declaration : VariableDeclaration)
  | whileStatement (test : Expression) (block : Statement)
  | withStatement
  | functionDeclaration

/-- `ast::types::Block`: statements plus the scope record the scope-analysis
pass attributed to this block (node-identity keying realised structurally). -/
inductive Block where
  | mk (statements : List Statement) (record : ScopeRecord)

/-- `ast::types::VariableDeclarationOrExpression` (C-style for-init). -/
inductive VariableDeclarationOrExpression where
  | variableDeclaration (declaration : VariableDeclaration)
  | expression (expression : Expression)

/-- `ast::types::VariableDeclaration`. -/
inductive VariableDeclaration where
  | mk (kind : VariableDeclarationKind) (declarators : List VariableDeclarator)

/-- `ast::types::VariableDeclarator`: binding plus optional initializer. -/
inductive VariableDeclarator where
  | mk (binding : Binding) (init : Option Expression)

/-- `ast::types::Binding`: identifier or (unsupported) pattern. -/
inductive Binding where
  | bindingIdentifier (name : Nat)
  | bindingPattern

/-- `ast::types::Expression`; unsupported variants carry no payload except where
the source inspects it (unary operators). -/
inductive Expression where
  | classExpression
  | literalBooleanExpression (value : Bool)
  | literalInfinityExpression
  | literalNullExpression
  | literalNumericExpression (value : Nat)
  | literalRegExpExpression (pattern : Nat) (global ignoreCase multiLine dotAll sticky unicode : Bool)
  | literalStringExpression (value : Nat)
  | arrayExpression (elements : List ArrayExpressionElement)
  | arrowExpression
  | assignmentExpression (binding : AssignmentTarget) (expression : Expression)
  | binaryExpression (operator : BinaryOperator) (left : Expression) (right : Expression)
  | callExpression (callee : ExpressionOrSuper) (arguments : List Argument)
  | compoundAssignmentExpression
  | conditionalExpression (test : Expression) (consequent : Expression) (alternate : Expression)
  | functionExpression
  | identifierExpression (name : Nat)
  | memberExpression (expr : MemberExpression)
  | newExpression (callee : Expression) (arguments : List Argument)
  | newTargetExpression
  | objectExpression (properties : List ObjectProperty)
  | optionalChain
  | optionalExpression
  | unaryExpression (operator : UnaryOperator) (operand : Expression)
  | templateExpression
  | thisExpression
  | updateExpression
  | yieldExpression
  | yieldGeneratorExpression
  | awaitExpression
  | importCallExpression

/-- `ast::types::MemberExpression`. -/
inductive MemberExpression where
  | computedMemberExpression (object : ExpressionOrSuper) (expression : Expression)
  | staticMemberExpression (object : ExpressionOrSuper) (property : Nat)
  | privateFieldExpression

/-- `ast::types::ExpressionOrSuper`. -/
inductive ExpressionOrSuper where
  | expression (expr : Expression)
  | superObject

/-- `ast::types::Argument`: plain expression or spread element. -/
inductive Argument where
  | expression (expr : Expression)
  | spreadElement (expr : Expression)

/-- `ast::types::ArrayExpressionElement`. -/
inductive ArrayExpressionElement where
  | expression (expr : Expression)
  | elision
  | spreadElement (expr : Expression)

/-- `ast::types::ObjectProperty`: a data property with its property name, or any
other (unsupported) property form. -/
inductive ObjectProperty where
  | dataProperty (name : PropertyName) (expression : Expression)
  | otherProperty

/-- `ast::types::PropertyName`. -/
inductive PropertyName where
  | staticPropertyName (value : Nat)
  | staticNumericPropertyName (value : Nat)
  | computedPropertyName (expression : Expression)

/-- `ast::types::AssignmentTarget`. -/
inductive AssignmentTarget where
  | simpleAssignmentTarget (target : SimpleAssignmentTarget)
  | assignmentTargetPattern

/-- `ast::types::SimpleAssignmentTarget`: identifier target, or any
(unsupported) member target. -/
inductive SimpleAssignmentTarget where
  | assignmentTargetIdentifier (name : Nat)
  | memberAssignmentTarget

end

/-- `ast::types::Program`: a script (list of statements) or a module (payload
irrelevant to the emitter, which rejects modules outright). -/
inductive Program where
  | script (statements : List Statement)
  | module

/-- Is this argument a spread element?  (the scan in `emit_new_expression`). -/
def isSpreadArgument : Argument → Bool
  | .spreadElement _ => true
  | .expression _ => false

/-- The unary-operator match of `emit_expression`: computes the opcode, failing
for `typeof` and `delete` before the operand is emitted. -/
def unaryOpcodeOf : UnaryOperator → Except EmitError Opcode
  | .plus => .ok .pos
  | .minus => .ok .neg
  | .logicalNot => .ok .not
  | .bitwiseNot => .ok .bitNot
  | .voidOp => .ok .voidOp
  | .typeofOp => .error (.notImplemented "TODO: Typeof")
  | .deleteOp => .error (.notImplemented "TODO: Delete")

/-- Outcome of the binary-operator match in `emit_binary_expression`: either a
plain opcode, a short-circuit jump kind (the source's early returns into
`emit_short_circuit`), or the comma sequence operator. -/
inductive BinKind where
  | op (opcode : Opcode)
  | shortCircuit (kind : JumpKind)
  | commaKind
deriving DecidableEq, Repr

/-- The operator dispatch table of `emit_binary_expression`, one arm per source
match arm. -/
def binKindOf : BinaryOperator → BinKind
  | .equals => .op .eq
  | .notEquals => .op .ne
  | .strictEquals => .op .strictEq
  | .strictNotEquals => .op .strictNe
  | .lessThan => .op .lt
  | .lessThanOrEqual => .op .le
  | .greaterThan => .op .gt
  | .greaterThanOrEqual => .op .ge
  | .inOp => .op .inOp
  | .instanceofOp => .op .instanceofOp
  | .leftShift => .op .lsh
  | .rightShift => .op .rsh
  | .rightShiftExt => .op .ursh
  | .add => .op .add
  | .sub => .op .sub
  | .mul => .op .mul
  | .div => .op .div
  | .mod => .op .mod
  | .pow => .op .pow
  | .bitwiseOr => .op .bitOr
  | .bitwiseXor => .op .bitXor
  | .bitwiseAnd => .op .bitAnd
  | .coalesce => .shortCircuit .coalesce
  | .logicalOr => .shortCircuit .logicalOr
  | .logicalAnd => .shortCircuit .logicalAnd
  | .comma => .commaKind

mutual

/-- The statement iteration shared by `ScriptEmitter`/`BlockEmitter` (those
emitters drive `emit_statement` over the statement list through callbacks). -/
def emitStatements : List Statement → EmitM Unit
  | [] => EmitM.pure ()
  | s :: rest => do
      emitStatement s
      emitStatements rest
termination_by l => 3 * sizeOf l

/-- `AstEmitter::emit_statement`: the per-variant statement dispatch, one arm
per source match arm.  The expression-statement arm discards the expression
result (modelled from the spec: statements have net stack effect 0). -/
def emitStatement (ast : Statement) : EmitM Unit :=
  match ast with
  | .classDeclaration => notImpl "TODO: ClassDeclaration"
  | .blockStatement block =>
    match block with
    | .mk statements record => withScope record (emitStatements statements)
  | .breakStatement label =>
    match label with
    | some _ => notImpl "TODO: Labeled BreakStatement"
    | none => breakEmit
  | .continueStatement label =>
    match label with
    | some _ => notImpl "TODO: Labeled ContinueStatement"
    | none => continueEmit
  | .debuggerStatement => notImpl "TODO: DebuggerStatement"
  | .doWhileStatement block test => emitDoWhileStatement block test
  | .emptyStatement => EmitM.pure ()
  | .expressionStatement expression => do
      emitExpression expression
      appendInstr .pop
  | .forInStatement => notImpl "TODO: ForInStatement"
  | .forOfStatement => notImpl "TODO: ForOfStatement"
  | .forStatement init test update block => emitCForStatement init test update block
  | .ifStatement test consequent alternate => emitIf test consequent alternate
  | .labeledStatement => notImpl "TODO: LabeledStatement"
  | .returnStatement => notImpl "TODO: ReturnStatement"
  | .switchStatement => notImpl "TODO: SwitchStatement"
  | .switchStatementWithDefault => notImpl "TODO: SwitchStatementWithDefault"
  | .throwStatement expression => do
      emitExpression expression
      appendInstr .throwInstr
  | .tryCatchStatement => notImpl "TODO: TryCatchStatement"
  | .tryFinallyStatement => notImpl "TODO: TryFinallyStatement"
  | .variableDeclarationStatement declaration =>
      emitVariableDeclarationStatement declaration
  | .whileStatement test block => emitWhileStatement test block
  | .withStatement => notImpl "TODO: WithStatement"
  | .functionDeclaration => notImpl "TODO: FunctionDeclaration"
termination_by 3 * sizeOf ast

/-- `AstEmitter::emit_variable_declaration_statement`: the declaration kind is
matched (all kinds proceed identically), then each declarator is emitted. -/
def emitVariableDeclarationStatement (ast : VariableDeclaration) : EmitM Unit :=
  match ast with
  | .mk kind declarators =>
    match kind with
    | .kindVar => emitDeclarators declarators
    | .kindLet => emitDeclarators declarators
    | .kindConst => emitDeclarators declarators

/-- The declarator loop of `emit_variable_declaration_statement`: a declarator
without an initializer is skipped entirely. -/
def emitDeclarators : List VariableDeclarator → EmitM Unit
  | [] => EmitM.pure ()
  | d :: rest =>
    match d with
    | .mk binding (some init) => do
        emitDeclarationAssignment binding init
        emitDeclarators rest
    | .mk _ none => emitDeclarators rest
termination_by l => 3 * sizeOf l

/-- `AstEmitter::emit_declaration_assignment`.  The `DeclarationEmitter` /
`NameReferenceEmitter::emit_for_declaration` pair is modelled from the spec
(§4.5 declaration initializer): emit the value, then a resolved-location
declaration write that leaves the value on the stack; the source then pops it. -/
def emitDeclarationAssignment (binding : Binding) (init : Expression) : EmitM Unit :=
  match binding with
  | .bindingIdentifier name => do
      let loc ← lookupNameM name
      emitExpression init
      appendInstr (.initName loc)
      appendInstr .pop
  | .bindingPattern => notImpl "BindingPattern"

/-- `AstEmitter::emit_if`: test, forward conditional jump-if-false, marked then
branch, consequent; with an alternate: unconditional forward jump (part of the
then branch), patch the conditional jump to the alternate's first instruction,
alternate, patch the goto to the merge point; without: patch the conditional
jump to the merge point. -/
def emitIf (test : Expression) (consequent : Statement)
    (alternate : Option Statement) : EmitM Unit := do
  emitExpression test
  let alternateJump ← forwardJump .ifEq
  jumpTargetM
  emitStatement consequent
  match alternate with
  | some alt => do
      let thenJump ← forwardJump .goto
      patchNotMerge alternateJump
      emitStatement alt
      patchMerge thenJump
  | none => patchMerge alternateJump
termination_by 3 * (sizeOf test + sizeOf consequent + sizeOf alternate) + 2

/-- Modelled from the spec (§4.4 while, `WhileEmitter`): push a loop context,
mark the head, emit the test, conditional jump past the body if false, emit the
body, jump back to the test, patch the exit and all pending breaks (to after
the loop) and continues (to the test). -/
def emitWhileStatement (test : Expression) (block : Statement) : EmitM Unit := fun s₀ =>
  let s := pushLoopFrame s₀
  let headOff := s.instrs.length
  let s₁ := { s with instrs := s.instrs ++ [Instr.jumpTarget] }
  match emitExpression test s₁ with
  | .err er s' => .err er (popLoopFrame s')
  | .ok _ s₂ =>
    let tok := s₂.instrs.length
    let s₃ := { s₂ with instrs := s₂.instrs ++ [Instr.jump .ifEq none] }
    match emitStatement block s₃ with
    | .err er s' => .err er (popLoopFrame s')
    | .ok _ s₄ =>
      let s₅ := { s₄ with instrs := s₄.instrs ++ [Instr.jump .goto (some headOff)] }
      let s₆ := { s₅ with instrs := patchTarget s₅.instrs tok s₅.instrs.length }
      exitLoopPatches headOff s₆
termination_by 3 * (sizeOf test + sizeOf block) + 2

/-- Modelled from the spec (§4.4 do-while, `DoWhileEmitter`): body first, then
the test, then a conditional jump back to the body if true; breaks patch to
after the loop, continues to the test. -/
def emitDoWhileStatement (block : Statement) (test : Expression) : EmitM Unit := fun s₀ =>
  let s := pushLoopFrame s₀
  let bodyOff := s.instrs.length
  let s₁ := { s with instrs := s.instrs ++ [Instr.jumpTarget] }
  match emitStatement block s₁ with
  | .err er s' => .err er (popLoopFrame s')
  | .ok _ s₂ =>
    let testOff := s₂.instrs.length
    let s₃ := { s₂ with instrs := s₂.instrs ++ [Instr.jumpTarget] }
    match emitExpression test s₃ with
    | .err er s' => .err er (popLoopFrame s')
    | .ok _ s₄ =>
      let s₅ := { s₄ with instrs := s₄.instrs ++ [Instr.jump .ifNe (some bodyOff)] }
      exitLoopPatches testOff s₅
termination_by 3 * (sizeOf block + sizeOf test) + 2

/-- Modelled from the spec (§4.4 C-style for, `CForEmitter`): optional init
(statement-like, an expression init's result is discarded), marked head, test
(absent test behaves as always-true), body, optional update (result
discarded), jump back to the head; breaks patch to after the loop, continues
to the update-or-test point. -/
def emitCForStatement (init : Option VariableDeclarationOrExpression)
    (test : Option Expression) (update : Option Expression)
    (block : Statement) : EmitM Unit := fun s₀ =>
  let s := pushLoopFrame s₀
  let initRes : ERes Unit :=
    match init with
    | some (.variableDeclaration d) => emitVariableDeclarationStatement d s
    | some (.expression e) =>
      match emitExpression e s with
      | .ok _ s' => .ok () { s' with instrs := s'.instrs ++ [Instr.pop] }
      | .err er s' => .err er s'
    | none => .ok () s
  match initRes with
  | .err er s' => .err er (popLoopFrame s')
  | .ok _ s₁ =>
    let headOff := s₁.instrs.length
    let s₂ := { s₁ with instrs := s₁.instrs ++ [Instr.jumpTarget] }
    let testRes : ERes (Option Nat) :=
      match test with
      | some t =>
        match emitExpression t s₂ with
        | .ok _ s' =>
          .ok (some s'.instrs.length) { s' with instrs := s'.instrs ++ [Instr.jump .ifEq none] }
        | .err er s' => .err er s'
      | none => .ok none s₂
    match testRes with
    | .err er s' => .err er (popLoopFrame s')
    | .ok tok s₃ =>
      match emitStatement block s₃ with
      | .err er s' => .err er (popLoopFrame s')
      | .ok _ s₄ =>
        let updateOff := s₄.instrs.length
        let updRes : ERes Unit :=
          match update with
          | some u =>
            match emitExpression u { s₄ with instrs := s₄.instrs ++ [Instr.jumpTarget] } with
            | .ok _ s' => .ok () { s' with instrs := s'.instrs ++ [Instr.pop] }
            | .err er s' => .err er s'
          | none => .ok () s₄
        match updRes with
        | .err er s' => .err er (popLoopFrame s')
        | .ok _ s₅ =>
          let s₆ := { s₅ with instrs := s₅.instrs ++ [Instr.jump .goto (some headOff)] }
          let s₇ :=
            match tok with
            | some t2 => { s₆ with instrs := patchTarget s₆.instrs t2 s₆.instrs.length }
            | none => s₆
          let continueTarget :=
            match update with
            | some _ => updateOff
            | none => headOff
          exitLoopPatches continueTarget s₇
termination_by 3 * (sizeOf init + sizeOf test + sizeOf update + sizeOf block) + 2

/-- `AstEmitter::emit_expression`: the per-variant expression dispatch, one arm
per source match arm.  Literal, object and array emission uses the pool and
object/array emitters modelled from the spec (§4.5). -/
def emitExpression (ast : Expression) : EmitM Unit :=
  match ast with
  | .classExpression => notImpl "TODO: ClassExpression"
  | .literalBooleanExpression value => appendInstr (.boolean value)
  | .literalInfinityExpression => appendInstr .doubleInfinity
  | .literalNullExpression => appendInstr .null
  | .literalNumericExpression value => appendInstr (.numeric value)
  | .literalRegExpExpression pattern global ignoreCase multiLine dotAll sticky unicode => do
      let index ← getRegExpIndexM ⟨pattern, global, ignoreCase, multiLine, dotAll, sticky, unicode⟩
      appendInstr (.regExp index)
  | .literalStringExpression value => do
      let strIndex ← getAtomIndexM value
      appendInstr (.string strIndex)
  | .arrayExpression elements => do
      appendInstr .newArray
      emitArrayElements elements
  | .arrowExpression => notImpl "TODO: ArrowExpression"
  | .assignmentExpression binding expression =>
      emitAssignmentExpression binding expression
  | .binaryExpression operator left right =>
      emitBinaryExpression operator left right
  | .callExpression callee arguments => emitCallExpression callee arguments
  | .compoundAssignmentExpression => notImpl "TODO: CompoundAssignmentExpression"
  | .conditionalExpression test consequent alternate =>
      emitConditionalExpression test consequent alternate
  | .functionExpression => notImpl "TODO: FunctionExpression"
  | .identifierExpression name => do
      let loc ← lookupNameM name
      appendInstr (.getName loc)
  | .memberExpression expr => emitMemberExpression expr
  | .newExpression callee arguments => emitNewExpression callee arguments
  | .newTargetExpression => notImpl "TODO: NewTargetExpression"
  | .objectExpression properties => do
      appendInstr .newObject
      emitObjectProperties properties
  | .optionalChain => notImpl "TODO: OptionalChain"
  | .optionalExpression => notImpl "TODO: OptionalExpression"
  | .unaryExpression operator operand =>
    match unaryOpcodeOf operator with
    | .error er => fun s => .err er s
    | .ok opcode => do
        emitExpression operand
        appendInstr (.unaryOp opcode)
  | .templateExpression => notImpl "TODO: TemplateExpression"
  | .thisExpression => emitThis
  | .updateExpression => notImpl "TODO: UpdateExpression"
  | .yieldExpression => notImpl "TODO: YieldExpression"
  | .yieldGeneratorExpression => notImpl "TODO: YieldGeneratorExpression"
  | .awaitExpression => notImpl "TODO: AwaitExpression"
  | .importCallExpression => notImpl "TODO: ImportCallExpression"
termination_by 3 * sizeOf ast

/-- `AstEmitter::emit_binary_expression`: the single operator match, with the
source's early returns into `emit_short_circuit` for the coalesce/or/and
operators and the comma sequence arm; otherwise left, right, binary opcode. -/
def emitBinaryExpression (operator : BinaryOperator) (left : Expression)
    (right : Expression) : EmitM Unit :=
  match binKindOf operator with
  | .shortCircuit kind => emitShortCircuit kind left right
  | .commaKind => do
      emitExpression left
      appendInstr .pop
      emitExpression right
  | .op opcode => do
      emitExpression left
      emitExpression right
      appendInstr (.binaryOp opcode)
termination_by 3 * (sizeOf left + sizeOf right) + 2

/-- `AstEmitter::emit_short_circuit`: left operand, forward conditional jump of
the short-circuiting kind (which leaves the tested value on the stack), pop the
left value, right operand, patch the jump to the merge point. -/
def emitShortCircuit (jump : JumpKind) (left : Expression)
    (right : Expression) : EmitM Unit := do
  emitExpression left
  let tok ← forwardJump jump
  appendInstr .pop
  emitExpression right
  patchMerge tok
termination_by 3 * (sizeOf left + sizeOf right) + 1

/-- `AstEmitter::emit_conditional_expression`: same control shape as `emit_if`
with both arms expressions. -/
def emitConditionalExpression (test : Expression) (consequent : Expression)
    (alternate : Expression) : EmitM Unit := do
  emitExpression test
  let elseJump ← forwardJump .ifEq
  jumpTargetM
  emitExpression consequent
  let finallyJump ← forwardJump .goto
  patchNotMerge elseJump
  emitExpression alternate
  patchMerge finallyJump
termination_by 3 * (sizeOf test + sizeOf consequent + sizeOf alternate) + 2

/-- `AstEmitter::emit_assignment_expression`.  The `AssignmentEmitter` /
`NameReferenceEmitter::emit_for_assignment` pair is modelled from the spec
(§4.5 assignment): emit the value, then a resolved-location write that leaves
the written value on the stack; non-identifier targets are unsupported. -/
def emitAssignmentExpression (binding : AssignmentTarget)
    (expression : Expression) : EmitM Unit :=
  match binding with
  | .simpleAssignmentTarget (.assignmentTargetIdentifier name) => do
      let loc ← lookupNameM name
      emitExpression expression
      appendInstr (.setName loc)
  | .simpleAssignmentTarget .memberAssignmentTarget =>
      notImpl "non-identifier assignment target"
  | .assignmentTargetPattern => notImpl "non-identifier assignment target"
termination_by 3 * (sizeOf binding + sizeOf expression) + 2

/-- The property loop of the object emitter (modelled from the spec §4.5
object literal construction). -/
def emitObjectProperties : List ObjectProperty → EmitM Unit
  | [] => EmitM.pure ()
  | p :: rest => do
      emitObjectProperty p
      emitObjectProperties rest
termination_by l => 3 * sizeOf l

/-- `AstEmitter::emit_object_property`; the `NamePropertyEmitter` /
`IndexPropertyEmitter` / `ComputedPropertyEmitter` shapes are modelled from the
spec (§4.5): plain key (value then init-with-key), computed key (key expression
then value). -/
def emitObjectProperty (property : ObjectProperty) : EmitM Unit :=
  match property with
  | .dataProperty (.staticPropertyName value) propValue => do
      emitExpression propValue
      appendInstr (.initProp value)
  | .dataProperty (.staticNumericPropertyName value) propValue => do
      emitExpression propValue
      appendInstr (.initIndexProp value)
  | .dataProperty (.computedPropertyName propKey) propValue => do
      emitExpression propKey
      emitExpression propValue
      appendInstr .initComputedProp
  | .otherProperty => notImpl "TODO: non data property"
termination_by 3 * sizeOf property + 2

/-- The element loop of the array emitter (modelled from the spec §4.5 array
literal construction: plain element appended at the current index, elision
advances the index without pushing, spread iterates and appends). -/
def emitArrayElements : List ArrayExpressionElement → EmitM Unit
  | [] => EmitM.pure ()
  | e :: rest =>
    match e with
    | .expression expr => do
        emitExpression expr
        appendInstr .initElemArray
        emitArrayElements rest
    | .elision => do
        appendInstr .hole
        emitArrayElements rest
    | .spreadElement expr => do
        emitExpression expr
        appendInstr .arraySpread
        emitArrayElements rest
termination_by l => 3 * sizeOf l

/-- `AstEmitter::emit_member_expression`; the `GetPropEmitter` /
`GetElemEmitter` / super variants are modelled from the spec (§4.5): object
(or `this` for super) first, then the static/dynamic key read. -/
def emitMemberExpression (ast : MemberExpression) : EmitM Unit :=
  match ast with
  | .computedMemberExpression (.expression object) expression => do
      emitExpression object
      emitExpression expression
      appendInstr .getElem
  | .computedMemberExpression .superObject expression => do
      emitThis
      emitExpression expression
      appendInstr .getSuperElem
  | .staticMemberExpression (.expression object) property => do
      emitExpression object
      appendInstr (.getProp property)
  | .staticMemberExpression .superObject property => do
      emitThis
      appendInstr (.getSuperProp property)
  | .privateFieldExpression => notImpl "PrivateFieldExpression"
termination_by 3 * sizeOf ast + 2

/-- `AstEmitter::emit_new_expression`: all arguments are scanned for a spread
element before anything is emitted; then (`NewEmitter`, modelled from the spec
§4.5 new) callee, arguments left-to-right, construct with the argument count. -/
def emitNewExpression (callee : Expression) (arguments : List Argument) : EmitM Unit :=
  if arguments.any isSpreadArgument then notImpl "TODO: SpreadNew"
  else do
    emitExpression callee
    emitArguments arguments
    appendInstr (.construct arguments.length)
termination_by 3 * (sizeOf callee + sizeOf arguments) + 2

/-- `AstEmitter::emit_call_expression`.  The `CallEmitter` and the
name/prop/elem call-reference emitters are modelled from the spec (§4.5 call):
a bare identifier callee becomes a name-based call reference (after the direct
`eval` check); a static/computed member callee emits the object once and a
property/element call reference that reuses it as the call's `this`; then the
arguments left-to-right; finally the call with the explicit argument count. -/
def emitCallExpression (callee : ExpressionOrSuper) (arguments : List Argument) : EmitM Unit := do
  match callee with
  | .expression expr =>
    match expr with
    | .identifierExpression name =>
      if name = evalAtom then notImpl "TODO: direct eval"
      else do
        let loc ← lookupNameM name
        appendInstr (.callNameRef loc)
    | .memberExpression (.staticMemberExpression (.expression object) property) => do
        emitExpression object
        appendInstr (.callPropRef property)
    | .memberExpression (.computedMemberExpression (.expression object) expression) => do
        emitExpression object
        emitExpression expression
        appendInstr .callElemRef
    | _ => notImpl "TODO: Call (only global functions are supported)"
  | .superObject => notImpl "TODO: Super"
  emitArguments arguments
  appendInstr (.call arguments.length)
termination_by 3 * (sizeOf callee + sizeOf arguments) + 2

/-- `AstEmitter::emit_arguments`: each argument in order. -/
def emitArguments : List Argument → EmitM Unit
  | [] => EmitM.pure ()
  | argument :: rest => do
      emitArgument argument
      emitArguments rest
termination_by l => 3 * sizeOf l

/-- `AstEmitter::emit_argument`: a plain expression argument is emitted; a
spread element is unsupported. -/
def emitArgument (ast : Argument) : EmitM Unit :=
  match ast with
  | .expression expr => emitExpression expr
  | .spreadElement _ => notImpl "TODO: SpreadElement"
termination_by 3 * sizeOf ast + 2

end

/-- `EmitOptions` (the source stores it; the recognized strict-mode stance is
not consulted on any implemented path). -/
structure EmitOptions where
  strict : Bool
deriving DecidableEq, Repr

/-- The output artifact (`EmitResult`): instruction stream, literal pools, and
the outermost scope record (spec §6). -/
structure EmitResult where
  instructions : List Instr
  atoms : List Nat
  regexps : List RegExpItem
  scriptRecord : ScopeRecord
deriving DecidableEq, Repr

/-- `InstructionWriter::into_emit_result`: package the finished state into the
artifact. -/
def intoEmitResult (s : EmitterState) : EmitResult :=
  ⟨s.instrs, s.atomPool, s.regexpPool, s.scopeDataMap.script⟩

/-- `AstEmitter::new`: fresh instruction writer, empty pools, empty scope and
loop stacks, holding the supplied scope data map. -/
def initialState (scopeDataMap : ScopeDataMap) : EmitterState :=
  ⟨[], [], [], [], [], scopeDataMap⟩

/-- `AstEmitter::emit_script` via `ScriptEmitter`.  Modelled from the spec
(§4.1, §4.3): the script is a scope-introducing node, so its scope record is
entered around the statement emission and exited afterwards (on the error path
too). -/
def emitScript (statements : List Statement) : EmitM Unit := fun s =>
  withScope s.scopeDataMap.script (emitStatements statements) s

set_option linter.unusedVariables false in
/-- `emit_program`: construct a fresh emitter, reject modules outright, emit a
script, and package the artifact; any emission error aborts the pipeline with
no artifact. -/
def emitProgram (ast : Program) (options : EmitOptions)
    (scopeDataMap : ScopeDataMap) : Except EmitError EmitResult :=
  match ast with
  | .script statements =>
    match emitScript statements (initialState scopeDataMap) with
    | .ok _ s => .ok (intoEmitResult s)
    | .err e _ => .error e
  | .module => .error (.notImplemented "TODO: modules")

/-! ### Unfolding lemmas for the emission monad and primitives -/

@[simp] theorem EmitM.bind_apply {α β : Type} (m : EmitM α) (f : α → EmitM β) (s : EmitterState) :
    (m >>= f) s = match m s with
      | .ok a s' => f a s'
      | .err e s' => .err e s' := rfl

@[simp] theorem EmitM.pure_apply {α : Type} (a : α) (s : EmitterState) :
    (EmitM.pure a) s = .ok a s := rfl

@[simp] theorem EmitM.monad_pure_apply {α : Type} (a : α) (s : EmitterState) :
    (Pure.pure a : EmitM α) s = .ok a s := rfl

@[simp] theorem appendInstr_apply (i : Instr) (s : EmitterState) :
    appendInstr i s = .ok () { s with instrs := s.instrs ++ [i] } := rfl

@[simp] theorem notImpl_apply {α : Type} (msg : String) (s : EmitterState) :
    (notImpl msg : EmitM α) s = .err (.notImplemented msg) s := rfl

@[simp] theorem forwardJump_apply (kind : JumpKind) (s : EmitterState) :
    forwardJump kind s
      = .ok s.instrs.length { s with instrs := s.instrs ++ [.jump kind none] } := rfl

@[simp] theorem patchMerge_apply (tok : Nat) (s : EmitterState) :
    patchMerge tok s = .ok () { s with instrs := patchTarget s.instrs tok s.instrs.length } := rfl

@[simp] theorem patchNotMerge_apply (tok : Nat) (s : EmitterState) :
    patchNotMerge tok s
      = .ok () { s with instrs := patchTarget s.instrs tok s.instrs.length } := rfl

@[simp] theorem jumpTargetM_apply (s : EmitterState) :
    jumpTargetM s = .ok () { s with instrs := s.instrs ++ [.jumpTarget] } := rfl

@[simp] theorem lookupNameM_apply (name : Nat) (s : EmitterState) :
    lookupNameM name s = .ok (lookupNameIn s.scopeStack name) s := rfl

@[simp] theorem getAtomIndexM_apply (a : Nat) (s : EmitterState) :
    getAtomIndexM a s
      = .ok (addToPool s.atomPool a).1 { s with atomPool := (addToPool s.atomPool a).2 } := rfl

@[simp] theorem getRegExpIndexM_apply (item : RegExpItem) (s : EmitterState) :
    getRegExpIndexM item s
      = .ok (addToPool s.regexpPool item).1
          { s with regexpPool := (addToPool s.regexpPool item).2 } := rfl

@[simp] theorem withScope_apply (r : ScopeRecord) (body : EmitM Unit) (s : EmitterState) :
    withScope r body s = match body (pushScope r s) with
      | .ok _ s' => .ok () (popScope s')
      | .err e s' => .err e (popScope s') := rfl

@[simp] theorem emitScript_apply (statements : List Statement) (s : EmitterState) :
    emitScript statements s
      = withScope s.scopeDataMap.script (emitStatements statements) s := rfl

/-! ### List and patch helper lemmas -/

theorem set_at_boundary {α : Type} (l₁ : List α) (a b : α) (l₂ : List α) :
    (l₁ ++ a :: l₂).set l₁.length b = l₁ ++ b :: l₂ := by
  induction l₁ with
  | nil => rfl
  | cons x xs ih => simp [List.set, ih]

theorem getElem?_at_boundary {α : Type} (l₁ : List α) (a : α) (l₂ : List α) :
    (l₁ ++ a :: l₂)[l₁.length]? = some a := by
  induction l₁ with
  | nil => simp
  | cons x xs ih => simpa using ih

theorem patchTarget_at_boundary (l₁ : List Instr) (k : JumpKind) (l₂ : List Instr) (t : Nat) :
    patchTarget (l₁ ++ .jump k none :: l₂) l₁.length t = l₁ ++ .jump k (some t) :: l₂ := by
  unfold patchTarget
  rw [getElem?_at_boundary]
  exact set_at_boundary l₁ _ _ l₂

theorem patchTarget_at_boundary' (l₁ : List Instr) (k : JumpKind) (l₂ : List Instr)
    (n t : Nat) (hn : n = l₁.length) :
    patchTarget (l₁ ++ .jump k none :: l₂) n t = l₁ ++ .jump k (some t) :: l₂ := by
  subst hn
  exact patchTarget_at_boundary l₁ k l₂ t

theorem patchTarget_length (l : List Instr) (tok t : Nat) :
    (patchTarget l tok t).length = l.length := by
  unfold patchTarget
  cases h : l[tok]? with
  | none => rfl
  | some i => cases i <;> simp

theorem netStackEffect_append (l₁ l₂ : List Instr) :
    netStackEffect (l₁ ++ l₂) = netStackEffect l₁ + netStackEffect l₂ := by
  simp [netStackEffect]

theorem netStackEffect_nil : netStackEffect [] = 0 := rfl

/-- Statement lists are emitted sequentially: emitting a concatenation runs the
first part, then (on success) the second from the reached state. -/
theorem emitStatements_append (l₁ l₂ : List Statement) (s : EmitterState) :
    emitStatements (l₁ ++ l₂) s = match emitStatements l₁ s with
      | .ok _ s' => emitStatements l₂ s'
      | .err e s' => .err e s' := by
  induction l₁ generalizing s with
  | nil => simp [emitStatements]
  | cons x xs ih =>
    simp only [List.cons_append, emitStatements, EmitM.bind_apply]
    cases emitStatement x s with
    | ok a s' => exact ih s'
    | err e s' => rfl

/-- Arguments are emitted left-to-right: emitting a concatenation runs the
first part, then (on success) the second from the reached state. -/
theorem emitArguments_append (l₁ l₂ : List Argument) (s : EmitterState) :
    emitArguments (l₁ ++ l₂) s = match emitArguments l₁ s with
      | .ok _ s' => emitArguments l₂ s'
      | .err e s' => .err e s' := by
  induction l₁ generalizing s with
  | nil => simp [emitArguments]
  | cons x xs ih =>
    simp only [List.cons_append, emitArguments, EmitM.bind_apply]
    cases emitArgument x s with
    | ok a s' => exact ih s'
    | err e s' => rfl

/-- Propagation of a state-independent statement error out of `emit_program`:
the pipeline yields an error (no artifact), and exactly that error when the
preceding statements emit successfully. -/
theorem emitProgram_statement_error (stmts₁ : List Statement) (stmt : Statement)
    (stmts₂ : List Statement) (e : EmitError) (options : EmitOptions) (sdm : ScopeDataMap)
    (h : ∀ s, emitStatement stmt s = .err e s) :
    (∃ e', emitProgram (.script (stmts₁ ++ stmt :: stmts₂)) options sdm = .error e')
    ∧ (∀ s₁, emitStatements stmts₁ (pushScope sdm.script (initialState sdm)) = .ok () s₁ →
        emitProgram (.script (stmts₁ ++ stmt :: stmts₂)) options sdm = .error e) := by
  have hrec : (initialState sdm).scopeDataMap.script = sdm.script := rfl
  constructor
  · unfold emitProgram
    simp only [emitScript_apply, withScope_apply, hrec]
    rw [emitStatements_append]
    cases hc : emitStatements stmts₁ (pushScope sdm.script (initialState sdm)) with
    | err e₁ s₁ => exact ⟨e₁, rfl⟩
    | ok a s₁ =>
      refine ⟨e, ?_⟩
      simp only [emitStatements, EmitM.bind_apply, h s₁]
  · intro s₁ hok
    unfold emitProgram
    simp only [emitScript_apply, withScope_apply, hrec]
    rw [emitStatements_append, hok]
    simp only [emitStatements, EmitM.bind_apply, h s₁]

/-! ### Sanity checks: the embedding is executable on concrete inputs -/

example : emitStatement .classDeclaration (initialState ⟨[]⟩)
    = .err (.notImplemented "TODO: ClassDeclaration") (initialState ⟨[]⟩) := by
  simp [emitStatement]

example : emitProgram (.script [.expressionStatement (.literalBooleanExpression true)]) ⟨false⟩ ⟨[]⟩
    = .ok ⟨[.boolean true, .pop], [], [], []⟩ := by
  simp [emitProgram, emitScript, emitStatements, emitStatement, emitExpression,
    pushScope, popScope, initialState, intoEmitResult]

example : emitProgram (.script [.ifStatement (.literalBooleanExpression true)
      (.expressionStatement (.literalNumericExpression 7)) none]) ⟨false⟩ ⟨[]⟩
    = .ok ⟨[.boolean true, .jump .ifEq (some 5), .jumpTarget, .numeric 7, .pop], [], [], []⟩ := by
  simp [emitProgram, emitScript, emitStatements, emitStatement, emitExpression, emitIf,
    pushScope, popScope, initialState, intoEmitResult, patchTarget]

/-! ### Claim theorems -/

/-- C1: every syntax-tree statement or expression kind without a defined emitter
(class declarations, labeled break/continue, debugger, for-in/of, labeled
statements, return, switch, try/catch/finally, with, function declarations,
class/arrow/function expressions, compound assignment, new.target, optional
chains, typeof/delete, template literals, this, update, yield, await, dynamic
import) fails with a `NotImplemented` error naming the construct and leaves the
emitter state untouched; such an error propagates out of `emit_program`, which
returns an error and hence no artifact. -/
theorem c1_unsupported_constructs :
    (∀ s : EmitterState,
      (emitStatement .classDeclaration s
          = .err (.notImplemented "TODO: ClassDeclaration") s)
      ∧ (∀ label, emitStatement (.breakStatement (some label)) s
          = .err (.notImplemented "TODO: Labeled BreakStatement") s)
      ∧ (∀ label, emitStatement (.continueStatement (some label)) s
          = .err (.notImplemented "TODO: Labeled ContinueStatement") s)
      ∧ (emitStatement .debuggerStatement s
          = .err (.notImplemented "TODO: DebuggerStatement") s)
      ∧ (emitStatement .forInStatement s
          = .err (.notImplemented "TODO: ForInStatement") s)
      ∧ (emitStatement .forOfStatement s
          = .err (.notImplemented "TODO: ForOfStatement") s)
      ∧ (emitStatement .labeledStatement s
          = .err (.notImplemented "TODO: LabeledStatement") s)
      ∧ (emitStatement .returnStatement s
          = .err (.notImplemented "TODO: ReturnStatement") s)
      ∧ (emitStatement .switchStatement s
          = .err (.notImplemented "TODO: SwitchStatement") s)
      ∧ (emitStatement .switchStatementWithDefault s
          = .err (.notImplemented "TODO: SwitchStatementWithDefault") s)
      ∧ (emitStatement .tryCatchStatement s
          = .err (.notImplemented "TODO: TryCatchStatement") s)
      ∧ (emitStatement .tryFinallyStatement s
          = .err (.notImplemented "TODO: TryFinallyStatement") s)
      ∧ (emitStatement .withStatement s
          = .err (.notImplemented "TODO: WithStatement") s)
      ∧ (emitStatement .functionDeclaration s
          = .err (.notImplemented "TODO: FunctionDeclaration") s))
    ∧ (∀ s : EmitterState,
      (emitExpression .classExpression s
          = .err (.notImplemented "TODO: ClassExpression") s)
      ∧ (emitExpression .arrowExpression s
          = .err (.notImplemented "TODO: ArrowExpression") s)
      ∧ (emitExpression .compoundAssignmentExpression s
          = .err (.notImplemented "TODO: CompoundAssignmentExpression") s)
      ∧ (emitExpression .functionExpression s
          = .err (.notImplemented "TODO: FunctionExpression") s)
      ∧ (emitExpression .newTargetExpression s
          = .err (.notImplemented "TODO: NewTargetExpression") s)
      ∧ (emitExpression .optionalChain s
          = .err (.notImplemented "TODO: OptionalChain") s)
      ∧ (emitExpression .optionalExpression s
          = .err (.notImplemented "TODO: OptionalExpression") s)
      ∧ (∀ operand, emitExpression (.unaryExpression .typeofOp operand) s
          = .err (.notImplemented "TODO: Typeof") s)
      ∧ (∀ operand, emitExpression (.unaryExpression .deleteOp operand) s
          = .err (.notImplemented "TODO: Delete") s)
      ∧ (emitExpression .templateExpression s
          = .err (.notImplemented "TODO: TemplateExpression") s)
      ∧ (emitExpression .thisExpression s
          = .err (.notImplemented "TODO: this") s)
      ∧ (emitExpression .updateExpression s
          = .err (.notImplemented "TODO: UpdateExpression") s)
      ∧ (emitExpression .yieldExpression s
          = .err (.notImplemented "TODO: YieldExpression") s)
      ∧ (emitExpression .yieldGeneratorExpression s
          = .err (.notImplemented "TODO: YieldGeneratorExpression") s)
      ∧ (emitExpression .awaitExpression s
          = .err (.notImplemented "TODO: AwaitExpression") s)
      ∧ (emitExpression .importCallExpression s
          = .err (.notImplemented "TODO: ImportCallExpression") s))
    ∧ (∀ (stmts₁ : List Statement) (stmt : Statement) (stmts₂ : List Statement)
        (e : EmitError) (options : EmitOptions) (sdm : ScopeDataMap),
        (∀ s, emitStatement stmt s = .err e s) →
        (∃ e', emitProgram (.script (stmts₁ ++ stmt :: stmts₂)) options sdm = .error e')
        ∧ (∀ s₁, emitStatements stmts₁ (pushScope sdm.script (initialState sdm)) = .ok () s₁ →
            emitProgram (.script (stmts₁ ++ stmt :: stmts₂)) options sdm = .error e)) := by
  refine ⟨fun s => ?_, fun s => ?_, ?_⟩
  · refine ⟨?_, ?_, ?_, ?_, ?_, ?_, ?_, ?_, ?_, ?_, ?_, ?_, ?_, ?_⟩ <;>
      (try intro label) <;> simp [emitStatement]
  · refine ⟨?_, ?_, ?_, ?_, ?_, ?_, ?_, ?_, ?_, ?_, ?_, ?_, ?_, ?_, ?_, ?_⟩ <;>
      (try intro operand) <;> simp [emitExpression, emitThis, unaryOpcodeOf]
  · intro stmts₁ stmt stmts₂ e options sdm h
    exact emitProgram_statement_error stmts₁ stmt stmts₂ e options sdm h

/-- C1 witness: a script consisting of a single class declaration makes
`emit_program` fail with exactly the construct-naming error. -/
theorem c1_unsupported_constructs_witness :
    emitProgram (.script [.classDeclaration]) ⟨false⟩ ⟨[]⟩
      = .error (.notImplemented "TODO: ClassDeclaration") := by
  have h := c1_unsupported_constructs
  exact (h.2.2 [] .classDeclaration [] (.notImplemented "TODO: ClassDeclaration") ⟨false⟩ ⟨[]⟩
    (fun s => (h.1 s).1)).2 (pushScope (⟨[]⟩ : ScopeDataMap).script (initialState ⟨[]⟩))
    (by simp [emitStatements])

/-- C7: `emit_program` rejects a module outright, returning the fatal
`NotImplemented("TODO: modules")` error before any emission happens, so the
pipeline produces no artifact. -/
theorem c7_module_rejected (options : EmitOptions) (sdm : ScopeDataMap) :
    emitProgram .module options sdm = .error (.notImplemented "TODO: modules") := rfl

/-- C9: a variable declarator without an initializer emits no bytecode at all
(the declarator leaves the whole emitter state unchanged), and a declaration
statement all of whose declarators lack initializers succeeds with the state
unchanged, for every declaration kind (var, let, const) and every binding. -/
theorem c9_declarator_without_init :
    (∀ (b : Binding) (rest : List VariableDeclarator) (s : EmitterState),
      emitDeclarators (.mk b none :: rest) s = emitDeclarators rest s)
    ∧ (∀ (kind : VariableDeclarationKind) (decls : List VariableDeclarator)
        (s : EmitterState),
      (∀ d ∈ decls, ∃ b, d = .mk b none) →
      emitVariableDeclarationStatement (.mk kind decls) s = .ok () s) := by
  constructor
  · intro b rest s
    simp [emitDeclarators]
  · intro kind decls s h
    have hd : emitDeclarators decls s = .ok () s := by
      induction decls with
      | nil => simp [emitDeclarators]
      | cons d rest ih =>
        obtain ⟨b, rfl⟩ := h d (by simp)
        rw [show emitDeclarators (.mk b none :: rest) s = emitDeclarators rest s by
          simp [emitDeclarators]]
        exact ih (fun d hd => h d (by simp [hd]))
    cases kind <;> simpa [emitVariableDeclarationStatement] using hd

/-- C9 witness: a `const`-kind declaration with one initializer-free
identifier declarator succeeds and leaves the emitter state untouched. -/
theorem c9_declarator_without_init_witness :
    emitVariableDeclarationStatement
        (.mk .kindConst [.mk (.bindingIdentifier 5) none]) (initialState ⟨[]⟩)
      = .ok () (initialState ⟨[]⟩) := by
  exact c9_declarator_without_init.2 .kindConst [.mk (.bindingIdentifier 5) none]
    (initialState ⟨[]⟩) (by intro d hd; simp at hd; exact ⟨.bindingIdentifier 5, hd⟩)

/-- C10: a comma binary expression emits the left operand, a pop discarding its
value, then the right operand; when each operand pushes one value the whole
sequence leaves exactly one value (the right operand's) on the stack. -/
theorem c10_comma_expression (left right : Expression) (s s₁ s₂ : EmitterState)
    (lSeg rSeg : List Instr)
    (hL : emitExpression left s = .ok () s₁)
    (hLs : s₁.instrs = s.instrs ++ lSeg)
    (hR : emitExpression right { s₁ with instrs := s₁.instrs ++ [Instr.pop] } = .ok () s₂)
    (hRs : s₂.instrs = s₁.instrs ++ [Instr.pop] ++ rSeg) :
    emitBinaryExpression .comma left right s = .ok () s₂
    ∧ s₂.instrs = s.instrs ++ lSeg ++ [Instr.pop] ++ rSeg
    ∧ (netStackEffect lSeg = 1 → netStackEffect rSeg = 1 →
        netStackEffect (lSeg ++ [Instr.pop] ++ rSeg) = 1) := by
  refine ⟨?_, ?_, ?_⟩
  · simp only [emitBinaryExpression, binKindOf, EmitM.bind_apply, hL, appendInstr_apply, hR]
  · rw [hRs, hLs]
  · intro h1 h2
    rw [netStackEffect_append, netStackEffect_append, h1, h2,
      show netStackEffect [Instr.pop] = -1 from rfl]
    norm_num

/-- C10 witness: `1, 2` emits `[numeric 1, pop, numeric 2]` with net stack
effect one. -/
theorem c10_comma_expression_witness :
    emitBinaryExpression .comma (.literalNumericExpression 1) (.literalNumericExpression 2)
        (initialState ⟨[]⟩)
      = .ok () ⟨[.numeric 1, .pop, .numeric 2], [], [], [], [], ⟨[]⟩⟩
    ∧ (⟨[.numeric 1, .pop, .numeric 2], [], [], [], [], ⟨[]⟩⟩ : EmitterState).instrs
        = (initialState ⟨[]⟩).instrs ++ [Instr.numeric 1] ++ [Instr.pop] ++ [Instr.numeric 2]
    ∧ (netStackEffect [Instr.numeric 1] = 1 → netStackEffect [Instr.numeric 2] = 1 →
        netStackEffect ([Instr.numeric 1] ++ [Instr.pop] ++ [Instr.numeric 2]) = 1) := by
  exact c10_comma_expression (.literalNumericExpression 1) (.literalNumericExpression 2)
    (initialState ⟨[]⟩) ⟨[.numeric 1], [], [], [], [], ⟨[]⟩⟩
    ⟨[.numeric 1, .pop, .numeric 2], [], [], [], [], ⟨[]⟩⟩
    [Instr.numeric 1] [Instr.numeric 2]
    (by simp [emitExpression, initialState]) (by simp [initialState])
    (by simp [emitExpression]) (by simp)

/-- C5: an assignment to an identifier target emits the value expression, then
a resolved-location write (`setName`) that leaves the written value on the
stack, so the assignment expression produces exactly one value; non-identifier
assignment targets are rejected as unsupported with the state untouched. -/
theorem c5_assignment_expression :
    (∀ (name : Nat) (expression : Expression) (s s₁ : EmitterState) (vSeg : List Instr),
      emitExpression expression s = .ok () s₁ →
      s₁.instrs = s.instrs ++ vSeg →
      emitAssignmentExpression
          (.simpleAssignmentTarget (.assignmentTargetIdentifier name)) expression s
        = .ok () { s₁ with
            instrs := s₁.instrs ++ [.setName (lookupNameIn s.scopeStack name)] }
      ∧ s₁.instrs ++ [.setName (lookupNameIn s.scopeStack name)]
          = s.instrs ++ vSeg ++ [.setName (lookupNameIn s.scopeStack name)]
      ∧ (netStackEffect vSeg = 1 →
          netStackEffect (vSeg ++ [.setName (lookupNameIn s.scopeStack name)]) = 1))
    ∧ (∀ (expression : Expression) (s : EmitterState),
      emitAssignmentExpression
          (.simpleAssignmentTarget .memberAssignmentTarget) expression s
        = .err (.notImplemented "non-identifier assignment target") s)
    ∧ (∀ (expression : Expression) (s : EmitterState),
      emitAssignmentExpression .assignmentTargetPattern expression s
        = .err (.notImplemented "non-identifier assignment target") s) := by
  refine ⟨?_, ?_, ?_⟩
  · intro name expression s s₁ vSeg hV hVs
    refine ⟨?_, ?_, ?_⟩
    · simp only [emitAssignmentExpression, EmitM.bind_apply, lookupNameM_apply, hV,
        appendInstr_apply]
    · rw [hVs]
    · intro h1
      rw [netStackEffect_append, h1,
        show netStackEffect [Instr.setName (lookupNameIn s.scopeStack name)] = 0 from rfl]
      norm_num
  · intro expression s
    simp [emitAssignmentExpression]
  · intro expression s
    simp [emitAssignmentExpression]

/-- C5 witness: `x := 5` (atom 3 as `x`) emits the value then the write, with
net stack effect one. -/
theorem c5_assignment_expression_witness :
    emitAssignmentExpression
        (.simpleAssignmentTarget (.assignmentTargetIdentifier 3))
        (.literalNumericExpression 5) (initialState ⟨[]⟩)
      = .ok () ⟨[.numeric 5, .setName (.globalName 3)], [], [], [], [], ⟨[]⟩⟩
    ∧ (netStackEffect [Instr.numeric 5] = 1 →
        netStackEffect ([Instr.numeric 5]
          ++ [.setName (lookupNameIn (initialState ⟨[]⟩).scopeStack 3)]) = 1) := by
  have h := (c5_assignment_expression.1 3 (.literalNumericExpression 5) (initialState ⟨[]⟩)
    ⟨[.numeric 5], [], [], [], [], ⟨[]⟩⟩ [Instr.numeric 5]
    (by simp [emitExpression, initialState]) (by simp [initialState]))
  exact ⟨by simpa [initialState, lookupNameIn] using h.1, h.2.2⟩

/-- C6: a declarator with an identifier binding and an initializer emits the
initializer value, then a resolved-location declaration write (`initName`),
then a pop discarding the value; when the initializer pushes one value the
declaration's net stack effect is zero. -/
theorem c6_declaration_assignment (name : Nat) (init : Expression)
    (s s₁ : EmitterState) (vSeg : List Instr)
    (hV : emitExpression init s = .ok () s₁)
    (hVs : s₁.instrs = s.instrs ++ vSeg) :
    emitDeclarationAssignment (.bindingIdentifier name) init s
      = .ok () { s₁ with
          instrs := s₁.instrs ++ [.initName (lookupNameIn s.scopeStack name), Instr.pop] }
    ∧ s₁.instrs ++ [.initName (lookupNameIn s.scopeStack name), Instr.pop]
        = s.instrs ++ vSeg ++ [.initName (lookupNameIn s.scopeStack name), Instr.pop]
    ∧ (netStackEffect vSeg = 1 →
        netStackEffect (vSeg ++ [.initName (lookupNameIn s.scopeStack name), Instr.pop]) = 0) := by
  refine ⟨?_, ?_, ?_⟩
  · simp only [emitDeclarationAssignment, EmitM.bind_apply, lookupNameM_apply, hV,
      appendInstr_apply]
    simp
  · rw [hVs]
  · intro h1
    rw [netStackEffect_append, h1,
      show netStackEffect [Instr.initName (lookupNameIn s.scopeStack name), Instr.pop] = -1
        from rfl]
    norm_num

/-- C3: the short-circuit operators dispatch to `emit_short_circuit` with the
matching jump kind (`logicalOr` jumps when truthy, `logicalAnd` when falsy,
`coalesce` when not nullish); those jump kinds leave the tested left value on
the stack (stack effect 0, unlike the consuming `ifEq`); and the emitted shape
is: left operand, the conditional jump, a pop of the left value, the right
operand, with the jump patched to the merge point right after the right
operand (the final stream length). -/
theorem c3_short_circuit :
    (∀ (left right : Expression) (s : EmitterState),
      emitBinaryExpression .logicalOr left right s = emitShortCircuit .logicalOr left right s
      ∧ emitBinaryExpression .logicalAnd left right s = emitShortCircuit .logicalAnd left right s
      ∧ emitBinaryExpression .coalesce left right s = emitShortCircuit .coalesce left right s)
    ∧ (∀ (t : Option Nat),
      stackEffect (.jump .logicalOr t) = 0
      ∧ stackEffect (.jump .logicalAnd t) = 0
      ∧ stackEffect (.jump .coalesce t) = 0
      ∧ stackEffect (.jump .ifEq t) = -1)
    ∧ (∀ (kind : JumpKind) (left right : Expression) (s s₁ s₂ : EmitterState)
        (lSeg rSeg : List Instr),
      emitExpression left s = .ok () s₁ →
      s₁.instrs = s.instrs ++ lSeg →
      emitExpression right
          { s₁ with instrs := s₁.instrs ++ [.jump kind none, Instr.pop] } = .ok () s₂ →
      s₂.instrs = s₁.instrs ++ [.jump kind none, Instr.pop] ++ rSeg →
      emitShortCircuit kind left right s
        = .ok () { s₂ with
            instrs := s.instrs ++ lSeg
              ++ .jump kind (some s₂.instrs.length) :: Instr.pop :: rSeg }
      ∧ s₂.instrs.length
          = (s.instrs ++ lSeg
              ++ .jump kind (some s₂.instrs.length) :: Instr.pop :: rSeg).length) := by
  refine ⟨?_, ?_, ?_⟩
  · intro left right s
    refine ⟨?_, ?_, ?_⟩ <;> simp [emitBinaryExpression, binKindOf]
  · intro t
    exact ⟨rfl, rfl, rfl, rfl⟩
  · intro kind left right s s₁ s₂ lSeg rSeg hL hLs hR hRs
    have hlist : s₂.instrs = s₁.instrs ++ Instr.jump kind none :: Instr.pop :: rSeg := by
      rw [hRs]; simp
    constructor
    · have hpatch : patchTarget s₂.instrs s₁.instrs.length s₂.instrs.length
          = s.instrs ++ lSeg ++ Instr.jump kind (some s₂.instrs.length) :: Instr.pop :: rSeg := by
        rw [hlist, hLs, patchTarget_at_boundary]
      simp only [emitShortCircuit, EmitM.bind_apply, hL, forwardJump_apply, appendInstr_apply,
        List.append_assoc, List.cons_append, List.singleton_append, List.nil_append, hR,
        patchMerge_apply, hpatch]
    · rw [hlist, hLs]
      simp

/-- C3 witness: `1 || 2` emits left, a `logicalOr` jump patched to the merge
point (offset 4, right after the right operand), pop, right. -/
theorem c3_short_circuit_witness :
    emitShortCircuit .logicalOr (.literalNumericExpression 1) (.literalNumericExpression 2)
        (initialState ⟨[]⟩)
      = .ok () { (⟨[.numeric 1, .jump .logicalOr none, .pop, .numeric 2],
            [], [], [], [], ⟨[]⟩⟩ : EmitterState) with
          instrs := (initialState ⟨[]⟩).instrs ++ [Instr.numeric 1]
            ++ Instr.jump .logicalOr
                (some (⟨[.numeric 1, .jump .logicalOr none, .pop, .numeric 2],
                  [], [], [], [], ⟨[]⟩⟩ : EmitterState).instrs.length)
              :: Instr.pop :: [Instr.numeric 2] }
    ∧ (⟨[.numeric 1, .jump .logicalOr none, .pop, .numeric 2],
          [], [], [], [], ⟨[]⟩⟩ : EmitterState).instrs.length
        = ((initialState ⟨[]⟩).instrs ++ [Instr.numeric 1]
            ++ Instr.jump .logicalOr
                (some (⟨[.numeric 1, .jump .logicalOr none, .pop, .numeric 2],
                  [], [], [], [], ⟨[]⟩⟩ : EmitterState).instrs.length)
              :: Instr.pop :: [Instr.numeric 2]).length := by
  exact c3_short_circuit.2.2 .logicalOr (.literalNumericExpression 1)
    (.literalNumericExpression 2) (initialState ⟨[]⟩)
    ⟨[.numeric 1], [], [], [], [], ⟨[]⟩⟩
    ⟨[.numeric 1, .jump .logicalOr none, .pop, .numeric 2], [], [], [], [], ⟨[]⟩⟩
    [Instr.numeric 1] [Instr.numeric 2]
    (by simp [emitExpression, initialState]) (by simp [initialState])
    (by simp [emitExpression]) (by simp)

/-- C2: `emit_if` emits the test, a forward conditional jump-if-false, a marked
then branch, and the consequent; with an alternate it then emits an
unconditional forward jump, patches the conditional jump to the alternate's
first instruction (`altOff`), emits the alternate, and patches the
unconditional jump to the merge point after the alternate (`mergeOff`, the
final stream length); without an alternate the conditional jump patches
directly to the merge point. -/
theorem c2_if_emission :
    (∀ (test : Expression) (consequent alt : Statement) (s s₁ s₂ s₃ : EmitterState)
        (testSeg consSeg altSeg : List Instr),
      emitExpression test s = .ok () s₁ →
      s₁.instrs = s.instrs ++ testSeg →
      emitStatement consequent
          { s₁ with instrs := s₁.instrs ++ [.jump .ifEq none, .jumpTarget] } = .ok () s₂ →
      s₂.instrs = s₁.instrs ++ [.jump .ifEq none, .jumpTarget] ++ consSeg →
      emitStatement alt
          { s₂ with instrs := s₁.instrs
              ++ Instr.jump .ifEq (some (s₂.instrs.length + 1))
              :: Instr.jumpTarget :: (consSeg ++ [Instr.jump .goto none]) } = .ok () s₃ →
      s₃.instrs = s₁.instrs
          ++ Instr.jump .ifEq (some (s₂.instrs.length + 1))
          :: Instr.jumpTarget :: (consSeg ++ [Instr.jump .goto none]) ++ altSeg →
      ∃ altOff mergeOff,
        emitIf test consequent (some alt) s
          = .ok () { s₃ with instrs := s.instrs ++ testSeg
                      ++ Instr.jump .ifEq (some altOff)
                      :: Instr.jumpTarget
                      :: (consSeg ++ Instr.jump .goto (some mergeOff) :: altSeg) }
        ∧ altOff = s.instrs.length + testSeg.length + 2 + consSeg.length + 1
        ∧ mergeOff = altOff + altSeg.length)
    ∧ (∀ (test : Expression) (consequent : Statement) (s s₁ s₂ : EmitterState)
        (testSeg consSeg : List Instr),
      emitExpression test s = .ok () s₁ →
      s₁.instrs = s.instrs ++ testSeg →
      emitStatement consequent
          { s₁ with instrs := s₁.instrs ++ [.jump .ifEq none, .jumpTarget] } = .ok () s₂ →
      s₂.instrs = s₁.instrs ++ [.jump .ifEq none, .jumpTarget] ++ consSeg →
      ∃ mergeOff,
        emitIf test consequent none s
          = .ok () { s₂ with instrs := s.instrs ++ testSeg
                      ++ Instr.jump .ifEq (some mergeOff) :: Instr.jumpTarget :: consSeg }
        ∧ mergeOff = s.instrs.length + testSeg.length + 2 + consSeg.length) := by
  constructor
  · intro test consequent alt s s₁ s₂ s₃ testSeg consSeg altSeg hT hTs hC hCs hA hAs
    refine ⟨s₂.instrs.length + 1, s₃.instrs.length, ?_, ?_, ?_⟩
    · have e1 : s₂.instrs ++ [Instr.jump .goto none]
          = s₁.instrs ++ Instr.jump .ifEq none
              :: (Instr.jumpTarget :: (consSeg ++ [Instr.jump .goto none])) := by
        rw [hCs]; simp
      have hpatch1 : patchTarget (s₂.instrs ++ [Instr.jump .goto none])
            s₁.instrs.length (s₂.instrs.length + 1)
          = s₁.instrs ++ Instr.jump .ifEq (some (s₂.instrs.length + 1))
              :: Instr.jumpTarget :: (consSeg ++ [Instr.jump .goto none]) := by
        rw [e1, patchTarget_at_boundary]
      have e3 : s₂.instrs.length
          = (s₁.instrs ++ Instr.jump .ifEq (some (s₂.instrs.length + 1))
              :: Instr.jumpTarget :: consSeg).length := by
        rw [hCs]; simp
      have e2 : s₃.instrs
          = (s₁.instrs ++ Instr.jump .ifEq (some (s₂.instrs.length + 1))
              :: Instr.jumpTarget :: consSeg) ++ Instr.jump .goto none :: altSeg := by
        rw [hAs]; simp
      have hpatch2 : patchTarget s₃.instrs s₂.instrs.length s₃.instrs.length
          = s₁.instrs ++ Instr.jump .ifEq (some (s₂.instrs.length + 1))
              :: Instr.jumpTarget
              :: (consSeg ++ Instr.jump .goto (some s₃.instrs.length) :: altSeg) := by
        conv_lhs => rw [e2]
        rw [patchTarget_at_boundary' _ _ _ _ _ e3, ← e2]
        simp
      simp only [emitIf, EmitM.bind_apply, hT, forwardJump_apply, jumpTargetM_apply,
        appendInstr_apply, List.append_assoc, List.cons_append, List.singleton_append,
        List.nil_append, hC, patchNotMerge_apply, patchMerge_apply, List.length_append,
        List.length_cons, List.length_nil]
      simp only [show s₂.instrs.length + (0 + 1) = s₂.instrs.length + 1 from by omega]
      simp only [hpatch1, hA, hpatch2]
      simp [hTs]
    · rw [hCs, hTs]; simp; omega
    · rw [hAs, hCs, hTs]; simp; omega
  · intro test consequent s s₁ s₂ testSeg consSeg hT hTs hC hCs
    refine ⟨s₂.instrs.length, ?_, ?_⟩
    · have e1 : s₂.instrs
          = s₁.instrs ++ Instr.jump .ifEq none :: (Instr.jumpTarget :: consSeg) := by
        rw [hCs]; simp
      have hpatch : patchTarget s₂.instrs s₁.instrs.length s₂.instrs.length
          = s₁.instrs ++ Instr.jump .ifEq (some s₂.instrs.length)
              :: Instr.jumpTarget :: consSeg := by
        conv_lhs => rw [e1]
        rw [patchTarget_at_boundary, ← e1]
      simp only [emitIf, EmitM.bind_apply, hT, forwardJump_apply, jumpTargetM_apply,
        appendInstr_apply, List.append_assoc, List.cons_append, List.singleton_append,
        List.nil_append, hC, patchMerge_apply, hpatch]
      simp [hTs]
    · rw [hCs, hTs]; simp; omega

/-- C2 witness: `if (true) {} else { 7; }` emits test, conditional jump
patched to the else branch's first instruction (offset 4), marked then branch,
goto patched to the merge point (offset 6), else branch. -/
theorem c2_if_emission_witness :
    emitIf (.literalBooleanExpression true) .emptyStatement
        (some (.expressionStatement (.literalNumericExpression 7))) (initialState ⟨[]⟩)
      = .ok () ⟨[.boolean true, .jump .ifEq (some 4), .jumpTarget,
          .jump .goto (some 6), .numeric 7, .pop], [], [], [], [], ⟨[]⟩⟩ := by
  obtain ⟨altOff, mergeOff, h1, h2, h3⟩ :=
    c2_if_emission.1 (.literalBooleanExpression true) .emptyStatement
      (.expressionStatement (.literalNumericExpression 7))
      (initialState ⟨[]⟩)
      ⟨[.boolean true], [], [], [], [], ⟨[]⟩⟩
      ⟨[.boolean true, .jump .ifEq none, .jumpTarget], [], [], [], [], ⟨[]⟩⟩
      ⟨[.boolean true, .jump .ifEq (some 4), .jumpTarget, .jump .goto none,
          .numeric 7, .pop], [], [], [], [], ⟨[]⟩⟩
      [Instr.boolean true] [] [Instr.numeric 7, Instr.pop]
      (by simp [emitExpression, initialState]) (by simp [initialState])
      (by simp [emitStatement]) (by simp)
      (by simp [emitStatement, emitExpression]) (by simp)
  have ha : altOff = 4 := by simpa [initialState] using h2
  have hm : mergeOff = 6 := by rw [h3, ha]; rfl
  rw [ha, hm] at h1
  simpa [initialState] using h1

/-- C4: a call with a bare identifier callee (other than direct `eval`) emits a
name-based call reference, then each argument left-to-right, then the call
with the explicit argument count; a static (resp. computed) member callee
emits the object once (resp. object then key) followed by the property-call
(resp. element-call) reference that reuses the object as the call's `this`;
direct `eval` calls and spread arguments are rejected as unsupported; and
argument lists emit left-to-right. -/
theorem c4_call_expression :
    (∀ (name : Nat) (args : List Argument) (s s₁ : EmitterState) (argSeg : List Instr),
      name ≠ evalAtom →
      emitArguments args
          { s with instrs := s.instrs ++ [.callNameRef (lookupNameIn s.scopeStack name)] }
        = .ok () s₁ →
      s₁.instrs = s.instrs ++ [.callNameRef (lookupNameIn s.scopeStack name)] ++ argSeg →
      emitCallExpression (.expression (.identifierExpression name)) args s
        = .ok () { s₁ with instrs := s₁.instrs ++ [.call args.length] }
      ∧ s₁.instrs ++ [.call args.length]
          = s.instrs ++ [.callNameRef (lookupNameIn s.scopeStack name)]
              ++ argSeg ++ [.call args.length])
    ∧ (∀ (obj : Expression) (prop : Nat) (args : List Argument) (s s₁ s₂ : EmitterState)
        (objSeg argSeg : List Instr),
      emitExpression obj s = .ok () s₁ →
      s₁.instrs = s.instrs ++ objSeg →
      emitArguments args { s₁ with instrs := s₁.instrs ++ [.callPropRef prop] } = .ok () s₂ →
      s₂.instrs = s₁.instrs ++ [.callPropRef prop] ++ argSeg →
      emitCallExpression
          (.expression (.memberExpression (.staticMemberExpression (.expression obj) prop)))
          args s
        = .ok () { s₂ with instrs := s₂.instrs ++ [.call args.length] }
      ∧ s₂.instrs ++ [.call args.length]
          = s.instrs ++ objSeg ++ [.callPropRef prop] ++ argSeg ++ [.call args.length])
    ∧ (∀ (obj key : Expression) (args : List Argument) (s s₁ s₂ s₃ : EmitterState)
        (objSeg keySeg argSeg : List Instr),
      emitExpression obj s = .ok () s₁ →
      s₁.instrs = s.instrs ++ objSeg →
      emitExpression key s₁ = .ok () s₂ →
      s₂.instrs = s₁.instrs ++ keySeg →
      emitArguments args { s₂ with instrs := s₂.instrs ++ [.callElemRef] } = .ok () s₃ →
      s₃.instrs = s₂.instrs ++ [.callElemRef] ++ argSeg →
      emitCallExpression
          (.expression (.memberExpression (.computedMemberExpression (.expression obj) key)))
          args s
        = .ok () { s₃ with instrs := s₃.instrs ++ [.call args.length] }
      ∧ s₃.instrs ++ [.call args.length]
          = s.instrs ++ objSeg ++ keySeg ++ [.callElemRef] ++ argSeg ++ [.call args.length])
    ∧ (∀ (args : List Argument) (s : EmitterState),
      emitCallExpression (.expression (.identifierExpression evalAtom)) args s
        = .err (.notImplemented "TODO: direct eval") s)
    ∧ (∀ (e : Expression) (s : EmitterState),
      emitArgument (.spreadElement e) s = .err (.notImplemented "TODO: SpreadElement") s)
    ∧ (∀ (xs ys : List Argument) (s : EmitterState),
      emitArguments (xs ++ ys) s = match emitArguments xs s with
        | .ok _ s' => emitArguments ys s'
        | .err e s' => .err e s') := by
  refine ⟨?_, ?_, ?_, ?_, ?_, ?_⟩
  · intro name args s s₁ argSeg hname hArgs hSeg
    constructor
    · simp only [emitCallExpression, EmitM.bind_apply, lookupNameM_apply, appendInstr_apply,
        if_neg hname, hArgs]
    · rw [hSeg]
  · intro obj prop args s s₁ s₂ objSeg argSeg hObj hObjSeg hArgs hSeg
    constructor
    · simp only [emitCallExpression, EmitM.bind_apply, hObj, appendInstr_apply, hArgs]
    · rw [hSeg, hObjSeg]
  · intro obj key args s s₁ s₂ s₃ objSeg keySeg argSeg hObj hObjSeg hKey hKeySeg hArgs hSeg
    constructor
    · simp only [emitCallExpression, EmitM.bind_apply, hObj, hKey, appendInstr_apply, hArgs]
    · rw [hSeg, hKeySeg, hObjSeg]
  · intro args s
    simp [emitCallExpression]
  · intro e s
    simp [emitArgument]
  · exact emitArguments_append

/-- C4 witness: `f(1)` (atom 3 as `f`), `o.p(1)` and `o[k](1)` (atoms 4, 5, 6)
emit callee reference, argument, call with count 1. -/
theorem c4_call_expression_witness :
    (emitCallExpression (.expression (.identifierExpression 3))
        [.expression (.literalNumericExpression 1)] (initialState ⟨[]⟩)
      = .ok () { (⟨[.callNameRef (.globalName 3), .numeric 1], [], [], [], [], ⟨[]⟩⟩
            : EmitterState) with
          instrs := [.callNameRef (.globalName 3), .numeric 1]
            ++ [.call ([Argument.expression (.literalNumericExpression 1)]).length] })
    ∧ (emitCallExpression
        (.expression (.memberExpression (.staticMemberExpression
          (.expression (.identifierExpression 4)) 5)))
        [.expression (.literalNumericExpression 1)] (initialState ⟨[]⟩)
      = .ok () { (⟨[.getName (.globalName 4), .callPropRef 5, .numeric 1],
            [], [], [], [], ⟨[]⟩⟩ : EmitterState) with
          instrs := [.getName (.globalName 4), .callPropRef 5, .numeric 1]
            ++ [.call ([Argument.expression (.literalNumericExpression 1)]).length] })
    ∧ (emitCallExpression
        (.expression (.memberExpression (.computedMemberExpression
          (.expression (.identifierExpression 4)) (.identifierExpression 6))))
        [.expression (.literalNumericExpression 1)] (initialState ⟨[]⟩)
      = .ok () { (⟨[.getName (.globalName 4), .getName (.globalName 6), .callElemRef,
            .numeric 1], [], [], [], [], ⟨[]⟩⟩ : EmitterState) with
          instrs := [.getName (.globalName 4), .getName (.globalName 6), .callElemRef,
            .numeric 1]
            ++ [.call ([Argument.expression (.literalNumericExpression 1)]).length] }) := by
  refine ⟨?_, ?_, ?_⟩
  · exact (c4_call_expression.1 3 [.expression (.literalNumericExpression 1)]
      (initialState ⟨[]⟩)
      ⟨[.callNameRef (.globalName 3), .numeric 1], [], [], [], [], ⟨[]⟩⟩
      [Instr.numeric 1] (by decide)
      (by simp [emitArguments, emitArgument, emitExpression, initialState, lookupNameIn])
      (by simp [initialState, lookupNameIn])).1
  · exact (c4_call_expression.2.1 (.identifierExpression 4) 5
      [.expression (.literalNumericExpression 1)] (initialState ⟨[]⟩)
      ⟨[.getName (.globalName 4)], [], [], [], [], ⟨[]⟩⟩
      ⟨[.getName (.globalName 4), .callPropRef 5, .numeric 1], [], [], [], [], ⟨[]⟩⟩
      [Instr.getName (.globalName 4)] [Instr.numeric 1]
      (by simp [emitExpression, initialState, lookupNameIn]) (by simp [initialState])
      (by simp [emitArguments, emitArgument, emitExpression]) (by simp)).1
  · exact (c4_call_expression.2.2.1 (.identifierExpression 4) (.identifierExpression 6)
      [.expression (.literalNumericExpression 1)] (initialState ⟨[]⟩)
      ⟨[.getName (.globalName 4)], [], [], [], [], ⟨[]⟩⟩
      ⟨[.getName (.globalName 4), .getName (.globalName 6)], [], [], [], [], ⟨[]⟩⟩
      ⟨[.getName (.globalName 4), .getName (.globalName 6), .callElemRef, .numeric 1],
        [], [], [], [], ⟨[]⟩⟩
      [Instr.getName (.globalName 4)] [Instr.getName (.globalName 6)] [Instr.numeric 1]
      (by simp [emitExpression, initialState, lookupNameIn]) (by simp [initialState])
      (by simp [emitExpression, lookupNameIn]) (by simp)
      (by simp [emitArguments, emitArgument, emitExpression]) (by simp)).1

/-- C8: a new-expression with any spread argument fails with
`NotImplemented("TODO: SpreadNew")` before emitting anything — the returned
state is exactly the input state — whereas an ordinary call with a spread
argument fails with `NotImplemented("TODO: SpreadElement")` only after the
callee reference and all preceding arguments have been emitted (the returned
state is the one reached after emitting them). -/
theorem c8_new_spread_scan :
    (∀ (callee : Expression) (args : List Argument) (s : EmitterState),
      args.any isSpreadArgument = true →
      emitNewExpression callee args s = .err (.notImplemented "TODO: SpreadNew") s)
    ∧ (∀ (name : Nat) (pre : List Argument) (e : Expression) (rest : List Argument)
        (s s₁ : EmitterState),
      name ≠ evalAtom →
      emitArguments pre
          { s with instrs := s.instrs ++ [.callNameRef (lookupNameIn s.scopeStack name)] }
        = .ok () s₁ →
      emitCallExpression (.expression (.identifierExpression name))
          (pre ++ .spreadElement e :: rest) s
        = .err (.notImplemented "TODO: SpreadElement") s₁) := by
  constructor
  · intro callee args s h
    simp [emitNewExpression, h]
  · intro name pre e rest s s₁ hname hPre
    simp only [emitCallExpression, EmitM.bind_apply, lookupNameM_apply, appendInstr_apply,
      if_neg hname]
    rw [emitArguments_append, hPre]
    simp [emitArguments, emitArgument]

/-- C8 witness: `new f(...xs)` (atoms 3, 4) fails leaving the state untouched,
while `f(1, ...xs)` fails only after `f`'s call reference and the argument `1`
are in the buffer. -/
theorem c8_new_spread_scan_witness :
    (emitNewExpression (.identifierExpression 3)
        [.spreadElement (.identifierExpression 4)] (initialState ⟨[]⟩)
      = .err (.notImplemented "TODO: SpreadNew") (initialState ⟨[]⟩))
    ∧ (emitCallExpression (.expression (.identifierExpression 3))
        ([.expression (.literalNumericExpression 1)]
          ++ .spreadElement (.identifierExpression 4) :: [])
        (initialState ⟨[]⟩)
      = .err (.notImplemented "TODO: SpreadElement")
          ⟨[.callNameRef (.globalName 3), .numeric 1], [], [], [], [], ⟨[]⟩⟩) := by
  constructor
  · exact c8_new_spread_scan.1 (.identifierExpression 3)
      [.spreadElement (.identifierExpression 4)] (initialState ⟨[]⟩) (by decide)
  · exact c8_new_spread_scan.2 3 [.expression (.literalNumericExpression 1)]
      (.identifierExpression 4) [] (initialState ⟨[]⟩)
      ⟨[.callNameRef (.globalName 3), .numeric 1], [], [], [], [], ⟨[]⟩⟩
      (by decide)
      (by simp [emitArguments, emitArgument, emitExpression, initialState, lookupNameIn])

/-- C6 witness: `let x = 5` (atom 3 as `x`) emits value, declaration write,
pop, with net stack effect zero. -/
theorem c6_declaration_assignment_witness :
    emitDeclarationAssignment (.bindingIdentifier 3) (.literalNumericExpression 5)
        (initialState ⟨[]⟩)
      = .ok () ⟨[.numeric 5, .initName (.globalName 3), .pop], [], [], [], [], ⟨[]⟩⟩
    ∧ (netStackEffect [Instr.numeric 5] = 1 →
        netStackEffect ([Instr.numeric 5]
          ++ [.initName (lookupNameIn (initialState ⟨[]⟩).scopeStack 3), Instr.pop]) = 0) := by
  have h := c6_declaration_assignment 3 (.literalNumericExpression 5) (initialState ⟨[]⟩)
    ⟨[.numeric 5], [], [], [], [], ⟨[]⟩⟩ [Instr.numeric 5]
    (by simp [emitExpression, initialState]) (by simp [initialState])
  exact ⟨by simpa [initialState, lookupNameIn] using h.1, h.2.2⟩

end Jsparagus
